import Mathlib

/-!
# Verification of the Ziben renderer core

Shallow embedding of the shader compilation/linking pipeline
(`Source/Renderer/Shader.cpp`), the frame submission protocol
(`Source/Renderer/Renderer.cpp`) and the index buffer lifecycle
(`Source/Renderer/IndexBuffer.cpp`), together with proofs of the spec
claims about them.

Strings from the C++ std::string API are modelled as `List Char`;
string indices are `Nat`, and `std::string::npos` results are modelled
as `Option Nat` (`none` = npos).  `size_t` subtraction, which can wrap,
is modelled explicitly (`sizeSub`).  Driver (OpenGL) behaviour is an
oracle structure of response functions, and driver calls are recorded
in an event list so that claims about call sequences can be stated.
-/

instance instDecEqExcept {e a : Type} [DecidableEq e] [DecidableEq a] :
    DecidableEq (Except e a) := fun x y =>
  match x, y with
  | .ok u, .ok v =>
    if h : u = v then .isTrue (by rw [h]) else .isFalse (by intro hc; cases hc; exact h rfl)
  | .error u, .error v =>
    if h : u = v then .isTrue (by rw [h]) else .isFalse (by intro hc; cases hc; exact h rfl)
  | .ok _, .error _ => .isFalse (by intro hc; cases hc)
  | .error _, .ok _ => .isFalse (by intro hc; cases hc)

/-! ## C++ std::string primitives -/

/-- `std::string::find(tok, ·)` helper: index of the first occurrence of
`tok` (as a contiguous sublist) in `l`, `none` if there is none.  An empty
token matches at position 0, as in C++. -/
def findSubAux (tok : List Char) : List Char → Option Nat
  | [] => if tok.isEmpty then some 0 else none
  | c :: cs =>
    if tok.isPrefixOf (c :: cs) then some 0
    else (findSubAux tok cs).map (· + 1)

/-- `s.find(tok, start)`: first occurrence of `tok` at index `start` or
later; `none` models `std::string::npos`. -/
def findSub (tok s : List Char) (start : Nat) : Option Nat :=
  (findSubAux tok (s.drop start)).map (· + start)

/-- Helper for `find_first_of` / `find_first_not_of`: first index whose
character satisfies `p`. -/
def findCharAux (p : Char → Bool) : List Char → Option Nat
  | [] => none
  | c :: cs => if p c then some 0 else (findCharAux p cs).map (· + 1)

/-- `s.find_first_of(chars, start)` specialised to a predicate. -/
def findFirstOf (s : List Char) (p : Char → Bool) (start : Nat) : Option Nat :=
  (findCharAux p (s.drop start)).map (· + start)

/-- `s.find_first_not_of(chars, start)` specialised to a predicate. -/
def findFirstNotOf (s : List Char) (p : Char → Bool) (start : Nat) : Option Nat :=
  (findCharAux (fun c => !(p c)) (s.drop start)).map (· + start)

/-- `size_t` subtraction `a - b` (wraps modulo `2 ^ 64`); used because
`Shader.cpp` computes `eol - begin` on unsigned values. -/
def sizeSub (a b : Nat) : Nat := (a + 2 ^ 64 - b) % 2 ^ 64

/-- `s.substr(pos, cnt)`: `std::string::substr` clamps `cnt` to the
remaining length. -/
def cppSubstr (s : List Char) (pos cnt : Nat) : List Char :=
  (s.drop pos).take cnt

/-- Membership in the character class `"\r\n"` used by `ParseShader`. -/
def isNewline (c : Char) : Bool := c == '\r' || c == '\n'

/-! ## Shader source splitter (Internal::ParseShader, Shader.cpp:33-78)

The `ShaderType` enumeration is declared in `Shader.hpp` (not part of the
sources at hand); its variants are evident from the lookup table in
`Internal::GetShaderTypeFromString` and the sentinel `ShaderType::None`. -/

inductive ShaderType where
  | None
  | Vertex
  | Fragment
  | Geometry
  | TessControl
  | TessEvaluation
  | Compute
deriving DecidableEq, Repr

/-- `Internal::GetShaderTypeFromString` (Shader.cpp:33-45): fixed
case-sensitive lookup table; unknown names map to the `None` sentinel. -/
def GetShaderTypeFromString (type : List Char) : ShaderType :=
  if type = "vertex".toList then ShaderType.Vertex
  else if type = "fragment".toList then ShaderType.Fragment
  else if type = "pixel".toList then ShaderType.Fragment
  else if type = "geometry".toList then ShaderType.Geometry
  else if type = "tessControl".toList then ShaderType.TessControl
  else if type = "tessEvaluation".toList then ShaderType.TessEvaluation
  else if type = "compute".toList then ShaderType.Compute
  else ShaderType.None

/-- The marker token `"#type"`. -/
def tokenChars : List Char := ['#', 't', 'y', 'p', 'e']

/-- `std::map<ShaderType, std::string>` assignment `result[k] = v`:
update in place if the key exists, insert otherwise. -/
def mapAssign (m : List (ShaderType × List Char)) (k : ShaderType) (v : List Char) :
    List (ShaderType × List Char) :=
  match m with
  | [] => [(k, v)]
  | (k1, v1) :: rest => if k1 = k then (k, v) :: rest else (k1, v1) :: mapAssign rest k v

/-- Failure modes of `Internal::ParseShader`.  The C++ expresses each as
an `assert`, i.e. a fatal abort of the parse; `outOfFuel` is an artefact
of the fuel-based encoding of the `while` loop and is unreachable when
the fuel is at least the number of markers (the loop position strictly
increases at every iteration). -/
inductive ParseErr where
  | missingEol
  | unknownStageKind
  | missingNextLine
  | outOfFuel
deriving DecidableEq, Repr

/-- The `while (position != npos)` loop of `Internal::ParseShader`
(Shader.cpp:55-75).  `position` is the absolute index of the current
`#type` marker (`none` = npos, the loop exit).  The constant `6` is
`position + token.size() + 1` from line 57. -/
def parseLoop (s : List Char) :
    Nat → Option Nat → List (ShaderType × List Char) →
    Except ParseErr (List (ShaderType × List Char))
  | _, Option.none, acc => .ok acc
  | 0, Option.some _, _ => .error ParseErr.outOfFuel
  | Nat.succ fuel, Option.some position, acc =>
    match findFirstOf s isNewline position with
    | Option.none => .error ParseErr.missingEol
    | Option.some eol =>
      let type := cppSubstr s (position + 6) (sizeSub eol (position + 6))
      if GetShaderTypeFromString type = ShaderType.None then
        .error ParseErr.unknownStageKind
      else
        match findFirstNotOf s isNewline eol with
        | Option.none => .error ParseErr.missingNextLine
        | Option.some nextLinePosition =>
          let position2 := findSub tokenChars s nextLinePosition
          let body :=
            match position2 with
            | Option.none => s.drop nextLinePosition
            | Option.some p2 => cppSubstr s nextLinePosition (sizeSub p2 nextLinePosition)
          parseLoop s fuel position2 (mapAssign acc (GetShaderTypeFromString type) body)

/-- `Internal::ParseShader` (Shader.cpp:47-78).  Fuel `s.length + 1`
always suffices because the marker position strictly increases. -/
def ParseShader (s : List Char) : Except ParseErr (List (ShaderType × List Char)) :=
  parseLoop s (s.length + 1) (findSub tokenChars s 0) []

/-! ## Find-function lemmas -/

theorem sizeSub_of_le {a b : Nat} (h1 : b ≤ a) (h2 : a - b < 2 ^ 64) :
    sizeSub a b = a - b := by
  unfold sizeSub; omega

theorem findCharAux_append {p : Char → Bool} {xs : List Char} (ys : List Char)
    (h : ∀ c ∈ xs, p c = false) :
    findCharAux p (xs ++ ys) = (findCharAux p ys).map (· + xs.length) := by
  induction xs with
  | nil =>
    cases hy : findCharAux p ys <;> simp [hy]
  | cons c cs ih =>
    have hc : p c = false := h c (by simp)
    have hcs : ∀ x ∈ cs, p x = false := fun x hx => h x (by simp [hx])
    rw [List.cons_append]
    show (if p c = true then some 0 else (findCharAux p (cs ++ ys)).map (· + 1)) = _
    rw [if_neg (by simp [hc]), ih hcs]
    cases hy : findCharAux p ys <;> simp [hy] <;> omega

theorem findCharAux_cons_true {p : Char → Bool} {c : Char} (l : List Char)
    (h : p c = true) : findCharAux p (c :: l) = some 0 := by
  show (if p c = true then some 0 else (findCharAux p l).map (· + 1)) = some 0
  rw [if_pos h]

theorem findSubAux_token_of_pref {l : List Char}
    (h : tokenChars.isPrefixOf l = true) : findSubAux tokenChars l = some 0 := by
  cases l with
  | nil => simp [tokenChars, List.isPrefixOf] at h
  | cons c cs =>
    show (if tokenChars.isPrefixOf (c :: cs) = true then some 0 else _) = some 0
    rw [if_pos h]

/-- The token `"#type"` cannot straddle the boundary between `L` and `ys`
when `ys` is empty or itself begins with the token: any prefix of the
token ends in a non-`#` character, while `ys` begins with `#`. -/
theorem token_no_straddle (L ys : List Char) (hL : tokenChars.isPrefixOf L = false)
    (hys : ys = [] ∨ tokenChars.isPrefixOf ys = true) (hLne : L ≠ [])
    (h : tokenChars.isPrefixOf (L ++ ys) = true) : False := by
  rw [List.isPrefixOf_iff_prefix] at h
  have htake : tokenChars = (L ++ ys).take tokenChars.length :=
    List.prefix_iff_eq_take.mp h
  rw [List.take_append_eq_append_take] at htake
  by_cases h5 : tokenChars.length ≤ L.length
  · rw [Nat.sub_eq_zero_of_le h5] at htake
    simp only [List.take_zero, List.append_nil] at htake
    have hpre : tokenChars <+: L := htake ▸ List.take_prefix tokenChars.length L
    rw [← List.isPrefixOf_iff_prefix] at hpre
    exact absurd hpre (by simp [hL])
  · have hlen : L.length < tokenChars.length := Nat.lt_of_not_le h5
    rw [List.take_of_length_le (Nat.le_of_lt hlen)] at htake
    rcases hys with hnil | hpre
    · subst hnil
      simp only [List.take_nil, List.append_nil] at htake
      have := congrArg List.length htake
      simp at this
      omega
    · have hys5 : tokenChars.length ≤ ys.length := by
        rw [List.isPrefixOf_iff_prefix] at hpre
        exact hpre.length_le
      obtain ⟨y, ys2, rfl⟩ : ∃ y ys2, ys = y :: ys2 := by
        cases ys with
        | nil => exact absurd hys5 (by decide)
        | cons y ys2 => exact ⟨y, ys2, rfl⟩
      have hy : y = '#' := by
        rw [List.isPrefixOf_iff_prefix] at hpre
        have : tokenChars = (y :: ys2).take tokenChars.length :=
          List.prefix_iff_eq_take.mp hpre
        simp [tokenChars] at this
        exact this.1.symm
      subst hy
      have hk1 : 1 ≤ L.length := by
        cases L with
        | nil => exact absurd rfl hLne
        | cons a as => simp
      have hk4 : L.length ≤ 4 := by
        have : tokenChars.length = 5 := by decide
        omega
      have hdrop := congrArg (List.drop L.length) htake
      rw [List.drop_left] at hdrop
      have htl : tokenChars.length - L.length ≥ 1 := by
        have : tokenChars.length = 5 := by decide
        omega
      obtain ⟨m, hm⟩ : ∃ m, tokenChars.length - L.length = m + 1 :=
        ⟨tokenChars.length - L.length - 1, by omega⟩
      rw [hm] at hdrop
      simp only [List.take_succ_cons] at hdrop
      set k := L.length with hkdef
      interval_cases k <;> simp [tokenChars] at hdrop

/-- Appending text that is empty or starts with the token to a
token-free `body` : the first occurrence is exactly at `body.length`
(or nowhere). -/
theorem findSubAux_token_append {ys : List Char}
    (hys : ys = [] ∨ tokenChars.isPrefixOf ys = true) :
    ∀ body, findSubAux tokenChars body = none →
      findSubAux tokenChars (body ++ ys) =
        (findSubAux tokenChars ys).map (· + body.length) := by
  intro body
  induction body with
  | nil =>
    intro _
    cases hy : findSubAux tokenChars ys <;> simp [hy]
  | cons c cs ih =>
    intro h
    have h0 : (if tokenChars.isPrefixOf (c :: cs) = true then some 0
        else (findSubAux tokenChars cs).map (· + 1)) = none := h
    by_cases hp : tokenChars.isPrefixOf (c :: cs) = true
    · rw [if_pos hp] at h0; exact absurd h0 (by simp)
    · rw [if_neg hp] at h0
      have hcs : findSubAux tokenChars cs = none := by
        cases hy : findSubAux tokenChars cs <;> simp [hy] at h0 ⊢
      rw [List.cons_append]
      show (if tokenChars.isPrefixOf (c :: (cs ++ ys)) = true then some 0
        else (findSubAux tokenChars (cs ++ ys)).map (· + 1)) = _
      have hnp : ¬ tokenChars.isPrefixOf (c :: (cs ++ ys)) = true := by
        intro hcontra
        refine token_no_straddle (c :: cs) ys ?_ hys (by simp) ?_
        · exact Bool.eq_false_iff.mpr hp
        · rw [List.cons_append]; exact hcontra
      rw [if_neg hnp, ih hcs]
      cases hy : findSubAux tokenChars ys <;> simp [hy] <;> omega

theorem parseLoop_step_bad {s : List Char} {p fuel : Nat}
    {acc : List (ShaderType × List Char)} {name rest0 : List Char}
    (hdrop : s.drop p = tokenChars ++ ' ' :: (name ++ '\n' :: rest0))
    (hnm : ∀ c ∈ name, isNewline c = false)
    (hlen : name.length < 2 ^ 64)
    (hbad : GetShaderTypeFromString name = ShaderType.None) :
    parseLoop s (fuel + 1) (Option.some p) acc = .error ParseErr.unknownStageKind := by
  have hsplit : s.drop p = (tokenChars ++ ' ' :: name) ++ ('\n' :: rest0) := by
    rw [hdrop]; simp
  have hA : ∀ c ∈ tokenChars ++ ' ' :: name, isNewline c = false := by
    intro c hc
    rw [List.mem_append, List.mem_cons] at hc
    rcases hc with h | h | h
    · fin_cases h <;> decide
    · subst h; decide
    · exact hnm c h
  have heol : findFirstOf s isNewline p = some (p + (6 + name.length)) := by
    unfold findFirstOf
    rw [hsplit, findCharAux_append ('\n' :: rest0) hA,
      findCharAux_cons_true rest0 (by decide)]
    simp [tokenChars]
    omega
  have h6 : s.drop (p + 6) = name ++ '\n' :: rest0 := by
    rw [← List.drop_drop 6 p s, hdrop]
    have hassoc : tokenChars ++ ' ' :: (name ++ '\n' :: rest0) =
        (tokenChars ++ [' ']) ++ (name ++ '\n' :: rest0) := by simp
    rw [hassoc]
    have h61 : (6 : Nat) = (tokenChars ++ [' ']).length := by decide
    rw [h61, List.drop_left]
  have htype : cppSubstr s (p + 6) (sizeSub (p + (6 + name.length)) (p + 6)) = name := by
    rw [sizeSub_of_le (by omega) (by omega)]
    unfold cppSubstr
    rw [h6]
    have harith : p + (6 + name.length) - (p + 6) = name.length := by omega
    rw [harith]
    exact List.take_left name ('\n' :: rest0)
  simp only [parseLoop]
  split
  · rename_i heq
    rw [heol] at heq
    simp at heq
  · rename_i eol heq
    rw [heol] at heq
    injection heq with h
    subst h
    simp [htype, hbad]

theorem dropWhile_head_false {p : Char → Bool} :
    ∀ (l : List Char) {c : Char} {t : List Char},
      l.dropWhile p = c :: t → p c = false := by
  intro l
  induction l with
  | nil => intro c t h; simp [List.dropWhile] at h
  | cons a as ih =>
    intro c t h
    rw [List.dropWhile_cons] at h
    split at h
    · exact ih h
    · rename_i hpa
      injection h with h1 _
      subst h1
      simpa using hpa

theorem token_pref_head {l : List Char}
    (h : tokenChars.isPrefixOf l = true) : ∃ t, l = '#' :: t := by
  cases l with
  | nil => simp [tokenChars, List.isPrefixOf] at h
  | cons y ys =>
    refine ⟨ys, ?_⟩
    rw [List.isPrefixOf_iff_prefix, List.prefix_iff_eq_take] at h
    rw [show tokenChars = '#' :: ['t', 'y', 'p', 'e'] from rfl] at h
    simp only [List.length_cons, List.take_succ_cons] at h
    injection h with h1 _
    rw [← h1]

/-- One successful iteration of the splitter loop: the marker at `p`
names a recognized stage and is followed by `body ++ tail`, where `tail`
is empty or begins with the next marker token.  `find_first_not_of`
(Shader.cpp:66) skips EVERY newline character after the marker line, so
the stored body is `body.dropWhile isNewline` - the leading newline run
of `body` is lost.  When the stripped body is empty the next marker must
follow, otherwise the code's `assert(nextLinePosition != npos)` fires. -/
theorem parseLoop_step_good {s : List Char} {p : Nat} (fuel : Nat)
    (acc : List (ShaderType × List Char)) {name body tail : List Char}
    (hdrop : s.drop p = tokenChars ++ ' ' :: (name ++ '\n' :: (body ++ tail)))
    (hnm : ∀ c ∈ name, isNewline c = false)
    (hnlen : name.length < 2 ^ 64)
    (hgood : ¬ GetShaderTypeFromString name = ShaderType.None)
    (hstok : findSubAux tokenChars (body.dropWhile isNewline) = none)
    (hslen : (body.dropWhile isNewline).length < 2 ^ 64)
    (hne0 : body.dropWhile isNewline ≠ [] ∨ tokenChars.isPrefixOf tail = true)
    (htail : tail = [] ∨ tokenChars.isPrefixOf tail = true) :
    parseLoop s (fuel + 1) (Option.some p) acc =
      parseLoop s fuel
        (if tail = [] then Option.none else Option.some (p + (7 + name.length + body.length)))
        (mapAssign acc (GetShaderTypeFromString name) (body.dropWhile isNewline))
    ∧ s.drop (p + (7 + name.length + body.length)) = tail := by
  have hA : ∀ c ∈ tokenChars ++ ' ' :: name, isNewline c = false := by
    intro c hc
    rw [List.mem_append, List.mem_cons] at hc
    rcases hc with h | h | h
    · fin_cases h <;> decide
    · subst h; decide
    · exact hnm c h
  have hsplit : s.drop p = (tokenChars ++ ' ' :: name) ++ ('\n' :: (body ++ tail)) := by
    rw [hdrop]; simp
  have heol : findFirstOf s isNewline p = some (p + (6 + name.length)) := by
    unfold findFirstOf
    rw [hsplit, findCharAux_append ('\n' :: (body ++ tail)) hA,
      findCharAux_cons_true _ (by decide)]
    simp [tokenChars]
    omega
  have h6 : s.drop (p + 6) = name ++ '\n' :: (body ++ tail) := by
    rw [← List.drop_drop 6 p s, hdrop]
    have hassoc : tokenChars ++ ' ' :: (name ++ '\n' :: (body ++ tail)) =
        (tokenChars ++ [' ']) ++ (name ++ '\n' :: (body ++ tail)) := by simp
    rw [hassoc]
    have h61 : (6 : Nat) = (tokenChars ++ [' ']).length := by decide
    rw [h61, List.drop_left]
  have htype : cppSubstr s (p + 6) (sizeSub (p + (6 + name.length)) (p + 6)) = name := by
    rw [sizeSub_of_le (by omega) (by omega)]
    unfold cppSubstr
    rw [h6]
    have harith : p + (6 + name.length) - (p + 6) = name.length := by omega
    rw [harith]
    exact List.take_left name _
  have h7 : s.drop (p + (6 + name.length)) = '\n' :: (body ++ tail) := by
    have hi : p + (6 + name.length) = (p + 6) + name.length := by omega
    rw [hi, ← List.drop_drop name.length (p + 6) s, h6, List.drop_left]
  have hbd : body = body.takeWhile isNewline ++ body.dropWhile isNewline :=
    (List.takeWhile_append_dropWhile isNewline body).symm
  have hblen2 : body.length =
      (body.takeWhile isNewline).length + (body.dropWhile isNewline).length := by
    conv_lhs => rw [hbd]
    rw [List.length_append]
  have h7b : s.drop (p + (6 + name.length)) =
      ('\n' :: body.takeWhile isNewline) ++ (body.dropWhile isNewline ++ tail) := by
    rw [h7]
    conv_lhs => rw [hbd, List.append_assoc]
    rw [List.cons_append]
  have hxs : ∀ c ∈ '\n' :: body.takeWhile isNewline, (!(isNewline c)) = false := by
    intro c hc
    rw [List.mem_cons] at hc
    rcases hc with hc | hc
    · subst hc; decide
    · have := List.mem_takeWhile_imp hc
      simp [this]
  have hhead : ∃ c2 t2, body.dropWhile isNewline ++ tail = c2 :: t2 ∧
      (!(isNewline c2)) = true := by
    cases hstr : body.dropWhile isNewline with
    | nil =>
      rcases hne0 with hne | hpre
      · exact absurd hstr hne
      · obtain ⟨t2, ht2⟩ := token_pref_head hpre
        refine ⟨'#', t2, ?_, by decide⟩
        rw [List.nil_append, ht2]
    | cons c2 t2 =>
      refine ⟨c2, t2 ++ tail, by rw [List.cons_append], ?_⟩
      have := dropWhile_head_false body hstr
      simp [this]
  obtain ⟨c2, t2, hct, hc2⟩ := hhead
  have hnlp : findFirstNotOf s isNewline (p + (6 + name.length)) =
      some (p + (6 + name.length) + (1 + (body.takeWhile isNewline).length)) := by
    unfold findFirstNotOf
    rw [h7b, findCharAux_append _ hxs, hct, findCharAux_cons_true _ hc2]
    simp
    omega
  have h8 : s.drop (p + (6 + name.length) + (1 + (body.takeWhile isNewline).length)) =
      body.dropWhile isNewline ++ tail := by
    have hi : p + (6 + name.length) + (1 + (body.takeWhile isNewline).length) =
        (p + (6 + name.length)) + ('\n' :: body.takeWhile isNewline).length := by
      rw [List.length_cons]
      omega
    rw [hi, ← List.drop_drop (('\n' :: body.takeWhile isNewline).length)
      (p + (6 + name.length)) s, h7b, List.drop_left]
  have htne : (tokenChars.isPrefixOf tail = true) → tail ≠ [] := by
    intro hpre hnil
    subst hnil
    simp [tokenChars, List.isPrefixOf] at hpre
  have hpos2 : findSub tokenChars s
      (p + (6 + name.length) + (1 + (body.takeWhile isNewline).length)) =
      (if tail = [] then Option.none
       else Option.some (p + (7 + name.length + body.length))) := by
    unfold findSub
    rw [h8, findSubAux_token_append htail (body.dropWhile isNewline) hstok]
    rcases htail with hnil | hpre
    · subst hnil
      rw [if_pos rfl]
      rfl
    · rw [if_neg (htne hpre), findSubAux_token_of_pref hpre]
      simp
      omega
  have h9 : s.drop (p + (7 + name.length + body.length)) = tail := by
    have hi : p + (7 + name.length + body.length) =
        (p + (6 + name.length) + (1 + (body.takeWhile isNewline).length)) +
          (body.dropWhile isNewline).length := by omega
    rw [hi, ← List.drop_drop ((body.dropWhile isNewline).length) _ s, h8,
      List.drop_left]
  refine ⟨?_, h9⟩
  simp only [parseLoop]
  split
  · rename_i heq
    rw [heol] at heq
    simp at heq
  · rename_i eol heq
    rw [heol] at heq
    injection heq with h
    subst h
    simp only [htype]
    rw [if_neg hgood]
    split
    · rename_i heq2
      rw [hnlp] at heq2
      simp at heq2
    · rename_i nlp heq2
      rw [hnlp] at heq2
      injection heq2 with h2
      subst h2
      simp only [hpos2]
      rcases Decidable.em (tail = []) with hnil | hne
      · rw [if_pos hnil]
        subst hnil
        simp only [List.append_nil] at h8
        simp only [h8]
      · rw [if_neg hne]
        have hsub : cppSubstr s
            (p + (6 + name.length) + (1 + (body.takeWhile isNewline).length))
            (sizeSub (p + (7 + name.length + body.length))
              (p + (6 + name.length) + (1 + (body.takeWhile isNewline).length))) =
            body.dropWhile isNewline := by
          rw [sizeSub_of_le (by omega) (by omega)]
          unfold cppSubstr
          rw [h8]
          have harith2 : p + (7 + name.length + body.length) -
              (p + (6 + name.length) + (1 + (body.takeWhile isNewline).length)) =
              (body.dropWhile isNewline).length := by omega
          rw [harith2]
          exact List.take_left _ _
        simp only [hsub]

structure StageSection where
  name : List Char
  body : List Char
deriving DecidableEq, Repr

def sectionText (sec : StageSection) : List Char :=
  tokenChars ++ ' ' :: (sec.name ++ '\n' :: sec.body)

def render : List StageSection → List Char
  | [] => []
  | sec :: rest => sectionText sec ++ render rest

/-- A wellformed section of a multi-stage source text decomposed at its
`#type` occurrences: the stage name is recognized, and the body after
its leading newline run contains no further `#type` occurrence (an
occurrence would, by the decomposition, start the next section).  The
body itself may be empty, may begin with newline characters, and its
newline run carries no further constraint - the length bound is the
`size_t` reality of C++ strings. -/
def SectionWF (sec : StageSection) : Prop :=
  ¬ GetShaderTypeFromString sec.name = ShaderType.None ∧
  findSubAux tokenChars (sec.body.dropWhile isNewline) = none ∧
  (sec.body.dropWhile isNewline).length < 2 ^ 64

def kindOf (sec : StageSection) : ShaderType := GetShaderTypeFromString sec.name

def assignAll (acc : List (ShaderType × List Char)) :
    List StageSection → List (ShaderType × List Char)
  | [] => acc
  | sec :: rest =>
    assignAll (mapAssign acc (kindOf sec) (sec.body.dropWhile isNewline)) rest

/-- The last section - and only the last - must keep a non-newline
character after its marker line: on the final section
`find_first_not_of` has no next marker to land on, so an all-newline
trailing body trips `assert(nextLinePosition != npos)` (a parse error,
not a split). -/
def lastStrippedOk : List StageSection → Bool
  | [] => true
  | [sec] => !(sec.body.dropWhile isNewline).isEmpty
  | _ :: rest => lastStrippedOk rest

theorem recognized_length {n : List Char}
    (h : ¬ GetShaderTypeFromString n = ShaderType.None) : n.length < 2 ^ 64 := by
  unfold GetShaderTypeFromString at h
  split_ifs at h with h1 h2 h3 h4 h5 h6 h7
  · subst h1; decide
  · subst h2; decide
  · subst h3; decide
  · subst h4; decide
  · subst h5; decide
  · subst h6; decide
  · subst h7; decide
  · exact absurd rfl h

theorem recognized_no_newline {n : List Char}
    (h : ¬ GetShaderTypeFromString n = ShaderType.None) :
    ∀ c ∈ n, isNewline c = false := by
  unfold GetShaderTypeFromString at h
  split_ifs at h with h1 h2 h3 h4 h5 h6 h7
  · subst h1; decide
  · subst h2; decide
  · subst h3; decide
  · subst h4; decide
  · subst h5; decide
  · subst h6; decide
  · subst h7; decide
  · exact absurd rfl h

theorem token_pref_sectionText (z : StageSection) (w : List Char) :
    tokenChars.isPrefixOf (sectionText z ++ w) = true := by
  rw [List.isPrefixOf_iff_prefix]
  unfold sectionText
  rw [List.append_assoc]
  exact List.prefix_append tokenChars _

theorem token_pref_render_bad (pre : List StageSection) (bad : StageSection)
    (tail : List Char) :
    tokenChars.isPrefixOf (render pre ++ sectionText bad ++ tail) = true := by
  cases pre with
  | nil =>
    rw [show render [] ++ sectionText bad ++ tail = sectionText bad ++ tail by simp [render]]
    exact token_pref_sectionText bad tail
  | cons q qs =>
    rw [show render (q :: qs) ++ sectionText bad ++ tail =
      sectionText q ++ (render qs ++ sectionText bad ++ tail) by simp [render]]
    exact token_pref_sectionText q _

theorem sectionText_append_ne (z : StageSection) (w : List Char) :
    sectionText z ++ w ≠ [] := by
  simp [sectionText, tokenChars]

theorem render_length_ge : ∀ sections : List StageSection,
    sections.length ≤ (render sections).length := by
  intro sections
  induction sections with
  | nil => simp [render]
  | cons sec rest ih =>
    show (sec :: rest).length ≤ (sectionText sec ++ render rest).length
    simp only [List.length_cons, List.length_append]
    have h5 : tokenChars.length = 5 := by decide
    have : 1 ≤ (sectionText sec).length := by simp [sectionText]; omega
    omega

theorem parseLoop_none (s : List Char) (fuel : Nat)
    (acc : List (ShaderType × List Char)) :
    parseLoop s fuel Option.none acc = .ok acc := by
  cases fuel <;> rfl

theorem parseLoop_render {s : List Char} :
    ∀ (sections : List StageSection) (fuel p : Nat)
      (acc : List (ShaderType × List Char)),
      (∀ sec ∈ sections, SectionWF sec) →
      lastStrippedOk sections = true →
      sections.length ≤ fuel →
      s.drop p = render sections →
      sections ≠ [] →
      parseLoop s fuel (Option.some p) acc = .ok (assignAll acc sections) := by
  intro sections
  induction sections with
  | nil => intro _ _ _ _ _ _ _ hne; exact absurd rfl hne
  | cons sec rest ih =>
    intro fuel p acc hwf hlast hfuel hdrop _
    obtain ⟨f, rfl⟩ : ∃ f, fuel = f + 1 := by
      cases fuel with
      | zero => simp at hfuel
      | succ f => exact ⟨f, rfl⟩
    have hsec : SectionWF sec := hwf sec (by simp)
    have hdrop2 : s.drop p =
        tokenChars ++ ' ' :: (sec.name ++ '\n' :: (sec.body ++ render rest)) := by
      rw [hdrop]
      show sectionText sec ++ render rest = _
      simp [sectionText]
    have htail : render rest = [] ∨ tokenChars.isPrefixOf (render rest) = true := by
      cases rest with
      | nil => exact Or.inl rfl
      | cons r rs => exact Or.inr (token_pref_sectionText r (render rs))
    have hne0 : sec.body.dropWhile isNewline ≠ [] ∨
        tokenChars.isPrefixOf (render rest) = true := by
      cases rest with
      | nil =>
        left
        have hl : lastStrippedOk [sec] = true := hlast
        simp only [lastStrippedOk] at hl
        intro hc
        rw [hc] at hl
        simp at hl
      | cons r rs => exact Or.inr (token_pref_sectionText r (render rs))
    obtain ⟨hstep, hdrop3⟩ :=
      parseLoop_step_good f acc hdrop2
        (recognized_no_newline hsec.1) (recognized_length hsec.1) hsec.1
        hsec.2.1 hsec.2.2 hne0 htail
    rw [hstep]
    cases rest with
    | nil =>
      rw [if_pos (show render ([] : List StageSection) = [] from rfl), parseLoop_none]
      rfl
    | cons r rs =>
      rw [if_neg (show render (r :: rs) ≠ [] from sectionText_append_ne r (render rs))]
      exact ih f _ _ (fun q hq => hwf q (by simp [hq]))
        (show lastStrippedOk (r :: rs) = true from hlast)
        (by simp at hfuel ⊢; omega) hdrop3 (by simp)

theorem ParseShader_render (sections : List StageSection)
    (hwf : ∀ sec ∈ sections, SectionWF sec)
    (hlast : lastStrippedOk sections = true) :
    ParseShader (render sections) = .ok (assignAll [] sections) := by
  cases sections with
  | nil => rfl
  | cons sec rest =>
    unfold ParseShader
    have h0 : findSub tokenChars (render (sec :: rest)) 0 = some 0 := by
      unfold findSub
      rw [List.drop_zero,
        findSubAux_token_of_pref (show tokenChars.isPrefixOf (render (sec :: rest)) = true
          from token_pref_sectionText sec (render rest))]
      rfl
    rw [h0]
    exact parseLoop_render (sec :: rest) _ 0 [] hwf hlast
      (by have := render_length_ge (sec :: rest); omega)
      (by rw [List.drop_zero]) (by simp)

theorem mapAssign_of_not_mem {acc : List (ShaderType × List Char)} {k : ShaderType}
    {v : List Char} (h : ∀ e ∈ acc, e.1 ≠ k) :
    mapAssign acc k v = acc ++ [(k, v)] := by
  induction acc with
  | nil => rfl
  | cons e rest ih =>
    obtain ⟨k1, v1⟩ := e
    show (if k1 = k then _ else _) = _
    rw [if_neg (h (k1, v1) (by simp))]
    rw [ih (fun e he => h e (by simp [he]))]
    simp

theorem assignAll_map : ∀ (sections : List StageSection)
    (acc : List (ShaderType × List Char)),
    (∀ sec ∈ sections, ∀ e ∈ acc, e.1 ≠ kindOf sec) →
    (sections.map kindOf).Nodup →
    assignAll acc sections =
      acc ++ sections.map (fun sec => (kindOf sec, sec.body.dropWhile isNewline)) := by
  intro sections
  induction sections with
  | nil => intro acc _ _; simp [assignAll]
  | cons sec rest ih =>
    intro acc hk hnd
    show assignAll
      (mapAssign acc (kindOf sec) (sec.body.dropWhile isNewline)) rest = _
    rw [mapAssign_of_not_mem (hk sec (by simp))]
    rw [List.map_cons, List.nodup_cons] at hnd
    rw [ih (acc ++ [(kindOf sec, sec.body.dropWhile isNewline)]) ?_ hnd.2]
    · simp
    · intro q hq e he
      rw [List.mem_append] at he
      rcases he with he | he
      · exact hk q (by simp [hq]) e he
      · simp at he
        subst he
        intro hcontra
        simp at hcontra
        exact hnd.1 (by rw [hcontra]; exact List.mem_map_of_mem kindOf hq)

theorem parseLoop_reaches_bad {s : List Char} {bad : StageSection} {tail : List Char}
    (hbadnm : ∀ c ∈ bad.name, isNewline c = false)
    (hbadlen : bad.name.length < 2 ^ 64)
    (hbad : GetShaderTypeFromString bad.name = ShaderType.None) :
    ∀ (pre : List StageSection) (fuel p : Nat) (acc : List (ShaderType × List Char)),
      (∀ sec ∈ pre, SectionWF sec) →
      pre.length + 1 ≤ fuel →
      s.drop p = render pre ++ sectionText bad ++ tail →
      parseLoop s fuel (Option.some p) acc = .error ParseErr.unknownStageKind := by
  intro pre
  induction pre with
  | nil =>
    intro fuel p acc _ hfuel hdrop
    obtain ⟨f, rfl⟩ : ∃ f, fuel = f + 1 := by
      cases fuel with
      | zero => omega
      | succ f => exact ⟨f, rfl⟩
    have hdrop2 : s.drop p =
        tokenChars ++ ' ' :: (bad.name ++ '\n' :: (bad.body ++ tail)) := by
      rw [hdrop]
      show render [] ++ sectionText bad ++ tail = _
      simp [render, sectionText]
    exact parseLoop_step_bad hdrop2 hbadnm hbadlen hbad
  | cons sec pre2 ih =>
    intro fuel p acc hwf hfuel hdrop
    obtain ⟨f, rfl⟩ : ∃ f, fuel = f + 1 := by
      cases fuel with
      | zero => simp at hfuel
      | succ f => exact ⟨f, rfl⟩
    have hsec : SectionWF sec := hwf sec (by simp)
    have hdrop2 : s.drop p = tokenChars ++
        ' ' :: (sec.name ++ '\n' :: (sec.body ++ (render pre2 ++ sectionText bad ++ tail))) := by
      rw [hdrop]
      show (sectionText sec ++ render pre2) ++ sectionText bad ++ tail = _
      simp [sectionText]
    have hpre2 : tokenChars.isPrefixOf
        (render pre2 ++ sectionText bad ++ tail) = true :=
      token_pref_render_bad pre2 bad tail
    obtain ⟨hstep, hdrop3⟩ :=
      parseLoop_step_good f acc hdrop2
        (recognized_no_newline hsec.1) (recognized_length hsec.1) hsec.1
        hsec.2.1 hsec.2.2 (Or.inr hpre2) (Or.inr hpre2)
    rw [hstep]
    have hne : (render pre2 ++ sectionText bad ++ tail) ≠ [] := by
      intro hcontra
      rw [hcontra] at hpre2
      simp [tokenChars, List.isPrefixOf] at hpre2
    rw [if_neg hne]
    exact ih f _ _ (fun q hq => hwf q (by simp [hq])) (by simp at hfuel ⊢; omega) hdrop3

instance instDecSectionWF (sec : StageSection) : Decidable (SectionWF sec) := by
  unfold SectionWF
  infer_instance

def recognizedStageNames : List (List Char) :=
  ["vertex".toList, "fragment".toList, "pixel".toList, "geometry".toList,
   "tessControl".toList, "tessEvaluation".toList, "compute".toList]

/-- C7 counterexample: `"#type vertex\n\nA\n"` is a valid multi-stage
source text (one vertex stage whose body begins with a blank line), but
`split` stores `"A\n"` for it - `find_first_not_of` (Shader.cpp:66)
skips the blank line - while the verbatim text between the marker line
and end-of-input is `"\nA\n"`.  The claimed verbatim property is
therefore false of the code. -/
theorem C7_counterexample :
    ParseShader "#type vertex\n\nA\n".toList =
      .ok [(ShaderType.Vertex, "A\n".toList)] ∧
    ("#type vertex\n\nA\n".toList).drop "#type vertex\n".length =
      "\nA\n".toList ∧
    ("A\n".toList : List Char) ≠ "\nA\n".toList := by decide

/-- C7 (amended): for every valid multi-stage source text - decomposed
at its `#type` occurrences into sections with recognized stage names and
distinct stage kinds, the last section keeping at least one non-newline
body character - `split` returns a mapping whose key set equals exactly
the set of stage kinds named in the text and whose value for each key is
that section's body text WITH ITS LEADING NEWLINE RUN STRIPPED, up to
the next `#type` occurrence or end-of-input (`find_first_not_of` skips
every newline after the marker line, so the stored body is not verbatim
when blank lines follow the marker); in particular split of
`"#type vertex\nA\n#type fragment\nB\n"` is
`{vertex: "A\n", fragment: "B\n"}`, and split of a text with zero
`#type` markers returns an empty mapping. -/
theorem C7_split_strips_leading_newlines :
    (∀ sections : List StageSection, (∀ sec ∈ sections, SectionWF sec) →
      lastStrippedOk sections = true →
      (sections.map kindOf).Nodup →
      ParseShader (render sections) =
        .ok (sections.map (fun sec => (kindOf sec, sec.body.dropWhile isNewline))))
    ∧ ParseShader "#type vertex\nA\n#type fragment\nB\n".toList =
        .ok [(ShaderType.Vertex, "A\n".toList), (ShaderType.Fragment, "B\n".toList)]
    ∧ (∀ s, findSubAux tokenChars s = none → ParseShader s = .ok []) := by
  refine ⟨?_, by decide, ?_⟩
  · intro sections hwf hlast hnd
    rw [ParseShader_render sections hwf hlast,
      assignAll_map sections [] (by simp) hnd]
    simp
  · intro s h0
    unfold ParseShader
    rw [show findSub tokenChars s 0 = none by
      unfold findSub; rw [List.drop_zero, h0]; rfl]
    exact parseLoop_none s _ []

/-- Witness for C7: the section list rendering to
`"#type vertex\n\nA\n#type fragment\nB\n"` - the first body begins
with a blank line, which the split strips - and a marker-free text. -/
theorem C7_witness :
    (ParseShader (render [⟨"vertex".toList, "\nA\n".toList⟩,
        ⟨"fragment".toList, "B\n".toList⟩]) =
      .ok ([(⟨"vertex".toList, "\nA\n".toList⟩ : StageSection),
        ⟨"fragment".toList, "B\n".toList⟩].map
          (fun sec => (kindOf sec, sec.body.dropWhile isNewline))))
    ∧ ParseShader "no markers".toList = .ok [] :=
  ⟨C7_split_strips_leading_newlines.1 _ (by decide) (by decide) (by decide),
   C7_split_strips_leading_newlines.2.2 _ (by decide)⟩

/-- C8: for every source text consisting of wellformed sections followed
by a `#type` marker whose stage name is not recognized (case-sensitive),
`split` fails with the unknown-stage parse error before returning; and
the stage-name lookup returns the `None` sentinel (the failing branch)
exactly for names outside the recognized table - it is unreachable for
recognized names. -/
theorem C8_unknown_stage_error :
    (∀ (pre : List StageSection) (bad : StageSection) (tail : List Char),
      (∀ sec ∈ pre, SectionWF sec) →
      (∀ c ∈ bad.name, isNewline c = false) →
      bad.name.length < 2 ^ 64 →
      GetShaderTypeFromString bad.name = ShaderType.None →
      ParseShader (render pre ++ sectionText bad ++ tail) =
        .error ParseErr.unknownStageKind)
    ∧ (∀ name : List Char, GetShaderTypeFromString name = ShaderType.None ↔
        name ∉ recognizedStageNames) := by
  constructor
  · intro pre bad tail hwf hnm hlen hbad
    unfold ParseShader
    have h0 : findSub tokenChars (render pre ++ sectionText bad ++ tail) 0 = some 0 := by
      unfold findSub
      rw [List.drop_zero, findSubAux_token_of_pref (token_pref_render_bad pre bad tail)]
      rfl
    rw [h0]
    refine parseLoop_reaches_bad hnm hlen hbad pre _ 0 [] hwf ?_ (by rw [List.drop_zero])
    have h1 := render_length_ge pre
    simp only [List.length_append]
    omega
  · intro name
    unfold GetShaderTypeFromString recognizedStageNames
    split_ifs with h1 h2 h3 h4 h5 h6 h7
    · subst h1; decide
    · subst h2; decide
    · subst h3; decide
    · subst h4; decide
    · subst h5; decide
    · subst h6; decide
    · subst h7; decide
    · simp only [List.mem_cons, not_or]
      exact ⟨fun _ => ⟨h1, h2, h3, h4, h5, h6, h7, by simp⟩, fun _ => trivial⟩

/-- Witness for C8: `"#type Vertex"` - capital `V`, hence unrecognized
by the case-sensitive table - is a parse error. -/
theorem C8_witness :
    ParseShader (render [] ++ sectionText ⟨"Vertex".toList, "X\n".toList⟩ ++ []) =
      .error ParseErr.unknownStageKind :=
  C8_unknown_stage_error.1 [] ⟨"Vertex".toList, "X\n".toList⟩ []
    (by simp) (by decide) (by decide) (by decide)

/-! ## GL driver and program model (Shader.cpp:82-257)

Driver behaviour is an oracle of response functions (`Driver`); the effect
of the issued GL calls on driver-side object state is tracked in
`GLState`, including an event list recording the calls that matter to the
claims.  Handles issued by the driver are `nextHandle + 1, ...`, so they
are never `0` (the C++ uses handle `0` as the unallocated sentinel). -/

inductive GLEvent where
  | createProgram (h : Nat)
  | createShader (h : Nat)
  | compileShader (h : Nat)
  | attachShader (p h : Nat)
  | linkProgram (p : Nat)
  | validateProgram (p : Nat)
  | detachShader (p h : Nat)
  | deleteShader (h : Nat)
  | deleteProgram (p : Nat)
  | useProgram (p : Nat)
deriving DecidableEq, Repr

structure GLState where
  nextHandle : Nat
  programs : List Nat
  shaderObjects : List Nat
  attachments : List (Nat × Nat)
  events : List GLEvent
deriving DecidableEq, Repr

/-- Oracle for the graphics driver responses. -/
structure Driver where
  createProgramOk : Bool
  createShaderOk : Bool
  compileStatus : ShaderType → List Char → Bool
  shaderInfoLog : List Char → String
  linkStatus : Bool
  programInfoLog : String
  uniformLocation : Nat → String → Int

/-- The `Shader` object fields (`m_Handle`, `m_IsLinked`,
`m_UniformLocations`) from `Shader.hpp` as used by `Shader.cpp`. -/
structure ShaderState where
  m_Handle : Nat
  m_IsLinked : Bool
  m_UniformLocations : List (String × Int)
deriving DecidableEq, Repr

/-- `m_UniformLocations.contains(name)` (std::map::contains). -/
def cacheContains (m : List (String × Int)) (name : String) : Bool :=
  m.any (fun e => e.1 == name)

/-- std::map lookup, used to model `operator[]`. -/
def cacheFind (m : List (String × Int)) (name : String) : Option Int :=
  (m.find? (fun e => e.1 == name)).map (fun e => e.2)

/-- `std::map::operator[]` in rvalue position: default-constructs the
value (`int{}`, i.e. `0`) and inserts it when the key is absent; returns
the stored value together with the possibly-extended map. -/
def cacheIndex (m : List (String × Int)) (name : String) :
    Int × List (String × Int) :=
  match cacheFind m name with
  | some v => (v, m)
  | none => (0, m ++ [(name, 0)])

/-- `m_UniformLocations[name] = location`: insert or update. -/
def cacheStore (m : List (String × Int)) (name : String) (v : Int) :
    List (String × Int) :=
  match m with
  | [] => [(name, v)]
  | e :: rest => if e.1 == name then (name, v) :: rest else e :: cacheStore rest name v

/-- `Shader::GetUniformLocation` (Shader.cpp:248-257).  Returns the int
handed back to the caller, the updated object state, and whether the
driver was queried (a `glGetUniformLocation` call was issued).  The final
C++ line `return m_UniformLocations[name];` uses `std::map::operator[]`,
which default-inserts value `0` when the key is absent - this is reached
both on a cache hit and when the fresh driver query returned a negative
location. -/
def Shader.GetUniformLocation (d : Driver) (sh : ShaderState) (name : String) :
    Int × ShaderState × Bool :=
  if !(cacheContains sh.m_UniformLocations name) then
    let location := d.uniformLocation sh.m_Handle name
    if 0 ≤ location then
      (location,
       { sh with m_UniformLocations := cacheStore sh.m_UniformLocations name location },
       true)
    else
      let r := cacheIndex sh.m_UniformLocations name
      (r.1, { sh with m_UniformLocations := r.2 }, true)
  else
    let r := cacheIndex sh.m_UniformLocations name
    (r.1, { sh with m_UniformLocations := r.2 }, false)

/-- The `Shader::SetUniform` overload family (Shader.cpp:216-246).  All
eight overloads have the same shape - resolve the location, then issue
the typed `glUniform*` call with it - so the payload type is a parameter
and each overload is an instantiation.  Returns the updated object state
and the issued upload `(location, payload)`. -/
def Shader.SetUniform {A : Type} (d : Driver) (sh : ShaderState) (name : String)
    (value : A) : ShaderState × (Int × A) :=
  let r := Shader.GetUniformLocation d sh name
  (r.2.1, (r.1, value))

/-- Driver-side semantics of one `glUniform*` call (environment model,
not repository code): location `-1` is ignored by OpenGL, a non-negative
location overwrites the uniform value stored there. -/
def glUniformApply {A : Type} (u : Int → Option A) (call : Int × A) :
    Int → Option A :=
  if call.1 < 0 then u
  else fun loc => if loc = call.1 then some call.2 else u loc

/-- `Shader::Compile(ShaderType, const std::string&)` (Shader.cpp:119-162).
Errors model the thrown `std::runtime_error`; the error carries the GL
state at throw time so that resource-release claims can be stated.  The
info-log length query is modelled as the length of the oracle log
string. -/
def Shader.CompileStage (d : Driver) (ty : ShaderType) (source : List Char)
    (sh : ShaderState) (g : GLState) :
    Except (String × GLState) (ShaderState × GLState) :=
  let step1 : Except (String × GLState) (ShaderState × GLState) :=
    if sh.m_Handle = 0 then
      if d.createProgramOk then
        let h := g.nextHandle + 1
        .ok ({ sh with m_Handle := h },
             { g with nextHandle := h, programs := g.programs ++ [h],
                      events := g.events ++ [GLEvent.createProgram h] })
      else .error ("Unable to create shader program!", g)
    else .ok (sh, g)
  match step1 with
  | .error e => .error e
  | .ok (sh1, g1) =>
    if d.createShaderOk then
      let hs := g1.nextHandle + 1
      let g2 := { g1 with nextHandle := hs,
                          shaderObjects := g1.shaderObjects ++ [hs],
                          events := g1.events ++ [GLEvent.createShader hs,
                            GLEvent.compileShader hs] }
      if d.compileStatus ty source then
        .ok (sh1, { g2 with attachments := g2.attachments ++ [(sh1.m_Handle, hs)],
                            events := g2.events ++ [GLEvent.attachShader sh1.m_Handle hs] })
      else
        let log := d.shaderInfoLog source
        let msg := if log ≠ "" then log ++ ": shader compilation failed!"
                   else "Shader compilation failed!"
        .error (msg, { g2 with shaderObjects := g2.shaderObjects.filter (fun x => x != hs),
                               events := g2.events ++ [GLEvent.deleteShader hs] })
    else .error ("Error creating shader!", g1)

/-- `Shader::Compile(const std::map<ShaderType, std::string>&)`
(Shader.cpp:114-117): compile each stage of the map in turn.  The C++
iterates the `std::map` in key order, which depends on the numeric enum
values declared in the missing `Shader.hpp`; no claim depends on the
iteration order, so the association list is folded in list order. -/
def Shader.CompileAll (d : Driver) (sources : List (ShaderType × List Char))
    (sh : ShaderState) (g : GLState) :
    Except (String × GLState) (ShaderState × GLState) :=
  match sources with
  | [] => .ok (sh, g)
  | (ty, src) :: rest =>
    match Shader.CompileStage d ty src sh g with
    | .error e => .error e
    | .ok (sh1, g1) => Shader.CompileAll d rest sh1 g1

/-- `Internal::ReadFile` (Shader.cpp:11-31): a missing file is logged
via `ZIBEN_ERROR` and an empty string returned; otherwise the contents
are returned.  (The second log branch for an unopenable existing file is
subsumed by the filesystem oracle returning `none`.)  The result pairs
the source text with the log messages emitted. -/
def ReadFile (fs : String → Option (List Char)) (filepath : String) :
    List Char × List String :=
  match fs filepath with
  | none => ([], ["Cant read the file by provided path: " ++ filepath])
  | some content => (content, [])

/-- Result of running the `Shader::Shader(const std::string&)`
constructor (Shader.cpp:97-105): a parse `assert` failure, a thrown
`std::runtime_error` from `Compile`, or a constructed object. -/
inductive ConstructResult where
  | parseFailure (e : ParseErr)
  | runtimeFailure (msg : String) (g : GLState)
  | ok (sh : ShaderState) (g : GLState) (logs : List String)
deriving DecidableEq, Repr

/-- `Shader::Shader(const std::string&)` (Shader.cpp:97-105): read the
file, split it, compile every stage; `m_Handle` starts at `0` and
`m_IsLinked` at `false`. -/
def Shader.construct (d : Driver) (fs : String → Option (List Char))
    (filepath : String) (g : GLState) : ConstructResult :=
  let r := ReadFile fs filepath
  match ParseShader r.1 with
  | .error e => .parseFailure e
  | .ok sources =>
    match Shader.CompileAll d sources
        { m_Handle := 0, m_IsLinked := false, m_UniformLocations := [] } g with
    | .error eg => .runtimeFailure eg.1 eg.2
    | .ok shg => .ok shg.1 shg.2 r.2

/-- `glGetAttachedShaders` for program `p` in state `g`. -/
def attachedTo (g : GLState) (p : Nat) : List Nat :=
  (g.attachments.filter (fun a => a.1 == p)).map (fun a => a.2)

/-- Detach-and-delete fold of the link success path (Shader.cpp:180-183). -/
def detachDeleteAll (p : Nat) (hs : List Nat) (g : GLState) : GLState :=
  hs.foldl (fun gg h =>
    { gg with attachments := gg.attachments.filter (fun a => !(a.1 == p && a.2 == h)),
              shaderObjects := gg.shaderObjects.filter (fun x => x != h),
              events := gg.events ++ [GLEvent.detachShader p h, GLEvent.deleteShader h] }) g

/-- Delete fold of the link failure path (Shader.cpp:199-200). -/
def deleteAll (hs : List Nat) (g : GLState) : GLState :=
  hs.foldl (fun gg h =>
    { gg with shaderObjects := gg.shaderObjects.filter (fun x => x != h),
              events := gg.events ++ [GLEvent.deleteShader h] }) g

/-- `Shader::Link` (Shader.cpp:164-204).  On link success: validate, set
`m_IsLinked`, detach and delete every attached stage.  On link failure
with a positive info-log length: fetch the log, delete the program and
the attached stages, throw the log text.  On link failure with log
length `0` the function falls through both branches and returns
normally.  The info-log length is modelled as the oracle log length. -/
def Shader.Link (d : Driver) (sh : ShaderState) (g : GLState) :
    Except (String × GLState) (ShaderState × GLState) :=
  let g1 := { g with events := g.events ++ [GLEvent.linkProgram sh.m_Handle] }
  let shaderHandles := attachedTo g1 sh.m_Handle
  if d.linkStatus then
    let g2 := { g1 with events := g1.events ++ [GLEvent.validateProgram sh.m_Handle] }
    .ok ({ sh with m_IsLinked := true }, detachDeleteAll sh.m_Handle shaderHandles g2)
  else if d.programInfoLog.length > 0 then
    let g2 := { g1 with programs := g1.programs.filter (fun x => x != sh.m_Handle),
                        attachments := g1.attachments.filter (fun a => !(a.1 == sh.m_Handle)),
                        events := g1.events ++ [GLEvent.deleteProgram sh.m_Handle] }
    .error (d.programInfoLog, deleteAll shaderHandles g2)
  else
    .ok (sh, g1)

/-- `Shader::Bind` (Shader.cpp:86-91): lazy link on first bind, then
`glUseProgram`. -/
def Shader.Bind (d : Driver) (sh : ShaderState) (g : GLState) :
    Except (String × GLState) (ShaderState × GLState) :=
  if sh.m_IsLinked then
    .ok (sh, { g with events := g.events ++ [GLEvent.useProgram sh.m_Handle] })
  else
    match Shader.Link d sh g with
    | .error e => .error e
    | .ok (sh1, g1) =>
      .ok (sh1, { g1 with events := g1.events ++ [GLEvent.useProgram sh1.m_Handle] })

/-- `n` successive `Shader::Bind` calls. -/
def Shader.bindIter (d : Driver) : Nat → ShaderState × GLState →
    Except (String × GLState) (ShaderState × GLState)
  | 0, sg => .ok sg
  | n + 1, sg =>
    match Shader.Bind d sg.1 sg.2 with
    | .error e => .error e
    | .ok sg1 => Shader.bindIter d n sg1

/-- Count of `glLinkProgram` requests in an event list. -/
def linkCount (es : List GLEvent) : Nat :=
  es.countP (fun e => match e with | GLEvent.linkProgram _ => true | _ => false)

/-! ## Concrete drivers and states used by the claim theorems -/

/-- A driver whose uniform lookup always reports the uniform as absent
(`glGetUniformLocation` returns `-1`); everything else succeeds. -/
def driverNegLookup : Driver :=
  { createProgramOk := true, createShaderOk := true,
    compileStatus := fun _ _ => true, shaderInfoLog := fun _ => "",
    linkStatus := true, programInfoLog := "",
    uniformLocation := fun _ _ => -1 }

/-- A driver for which everything succeeds. -/
def driverAllOk : Driver :=
  { createProgramOk := true, createShaderOk := true,
    compileStatus := fun _ _ => true, shaderInfoLog := fun _ => "",
    linkStatus := true, programInfoLog := "",
    uniformLocation := fun _ _ => 0 }

/-- A linked program object with handle 1 and an empty uniform cache. -/
def shLinked1 : ShaderState :=
  { m_Handle := 1, m_IsLinked := true, m_UniformLocations := [] }

/-- The empty GL state. -/
def glEmpty : GLState :=
  { nextHandle := 0, programs := [], shaderObjects := [], attachments := [],
    events := [] }

/-- C1: the claim says that when the driver lookup returns a negative
location, `GetUniformLocation` caches nothing, returns the negative
sentinel, and every future lookup re-queries the driver.  Evaluating the
code at the failing input (`"u_Missing"`, driver lookup `-1`): the first
call returns `0` (not the negative sentinel) because the fallthrough
`return m_UniformLocations[name];` default-inserts value `0`; the name
IS cached afterwards; and the second call does NOT query the driver
(third component `false`) and returns the cached `0`. -/
theorem C1_negative_lookup_is_cached_as_zero :
    (Shader.GetUniformLocation driverNegLookup shLinked1 "u_Missing").1 = 0 ∧
    cacheContains (Shader.GetUniformLocation driverNegLookup shLinked1
      "u_Missing").2.1.m_UniformLocations "u_Missing" = true ∧
    (Shader.GetUniformLocation driverNegLookup
      (Shader.GetUniformLocation driverNegLookup shLinked1 "u_Missing").2.1
      "u_Missing").2.2 = false ∧
    (Shader.GetUniformLocation driverNegLookup
      (Shader.GetUniformLocation driverNegLookup shLinked1 "u_Missing").2.1
      "u_Missing").1 = 0 := by decide

/-- A GPU uniform store with a real uniform (value `5`) at location `0`. -/
def gpuBefore : Int → Option Nat := fun loc => if loc = 0 then some 5 else none

/-- C2: the claim says a `setUniform` with an unresolvable name raises no
error and skips the upload, leaving GPU uniform state unchanged.
Evaluating the code at the failing input (`SetUniform("u_Missing", 7)`
with driver lookup `-1` and a real uniform at location `0`): the upload
is issued at location `0` (the default-inserted cache value), and the
GPU uniform at location `0` is overwritten from `5` to `7` - the upload
is not skipped and GPU state changes. -/
theorem C2_missing_uniform_upload_not_skipped :
    (Shader.SetUniform driverNegLookup shLinked1 "u_Missing" (7 : Nat)).2.1 = 0 ∧
    glUniformApply gpuBefore
      (Shader.SetUniform driverNegLookup shLinked1 "u_Missing" (7 : Nat)).2 0 =
      some 7 ∧
    gpuBefore 0 = some 5 ∧
    glUniformApply gpuBefore
      (Shader.SetUniform driverNegLookup shLinked1 "u_Missing" (7 : Nat)).2 0 ≠
      gpuBefore 0 := by decide

/-- C3 counterexample: for a filepath whose file cannot be read,
`Shader::Create` does NOT fail: the constructor completes normally with
handle `0`, returning only a log message - refuting the claim that the
zero-markers condition is a propagated fatal error. -/
theorem C3_counterexample :
    Shader.construct driverAllOk (fun _ => none) "missing.glsl" glEmpty =
      .ok { m_Handle := 0, m_IsLinked := false, m_UniformLocations := [] } glEmpty
        ["Cant read the file by provided path: missing.glsl"] := by decide

/-- C3 (amended): for every filepath whose file cannot be read, the error
is only logged and the source treated as empty; an empty source - and in
general any source with zero `#type` markers - parses to an empty stage
map, and construction then compiles zero stages and completes WITHOUT
any error, leaving the program handle unallocated (`0`) and the GL state
untouched. -/
theorem C3_zero_markers_silently_accepted :
    (∀ (d : Driver) (fs : String → Option (List Char)) (filepath : String)
       (g : GLState),
      fs filepath = none →
      Shader.construct d fs filepath g =
        .ok { m_Handle := 0, m_IsLinked := false, m_UniformLocations := [] } g
          ["Cant read the file by provided path: " ++ filepath])
    ∧ (∀ (d : Driver) (fs : String → Option (List Char)) (filepath : String)
        (g : GLState) (content : List Char),
      fs filepath = some content → findSubAux tokenChars content = none →
      Shader.construct d fs filepath g =
        .ok { m_Handle := 0, m_IsLinked := false, m_UniformLocations := [] } g []) := by
  constructor
  · intro d fs filepath g hfs
    unfold Shader.construct ReadFile
    rw [hfs]
    rfl
  · intro d fs filepath g content hfs h0
    have hp : ParseShader content = .ok [] := by
      unfold ParseShader
      rw [show findSub tokenChars content 0 = none by
        unfold findSub; rw [List.drop_zero, h0]; rfl]
      exact parseLoop_none content _ []
    unfold Shader.construct ReadFile
    rw [hfs]
    show (match ParseShader content with
      | .error e => ConstructResult.parseFailure e
      | .ok sources =>
        match Shader.CompileAll d sources
            { m_Handle := 0, m_IsLinked := false, m_UniformLocations := [] } g with
        | .error eg => ConstructResult.runtimeFailure eg.1 eg.2
        | .ok shg => ConstructResult.ok shg.1 shg.2 ([] : List String)) = _
    rw [hp]
    rfl

/-- Witness for C3: a readable file whose text has no `#type` marker is
accepted without error. -/
theorem C3_witness :
    Shader.construct driverAllOk (fun _ => some "hello world".toList) "file.glsl"
      glEmpty =
      .ok { m_Handle := 0, m_IsLinked := false, m_UniformLocations := [] } glEmpty
        [] :=
  C3_zero_markers_silently_accepted.2 driverAllOk _ "file.glsl" glEmpty
    "hello world".toList rfl (by decide)

/-! ## C4/C5: failure-path resource accounting -/

theorem deleteAll_programs : ∀ (hs : List Nat) (g : GLState),
    (deleteAll hs g).programs = g.programs := by
  intro hs
  induction hs with
  | nil => intro g; rfl
  | cons h t ih => intro g; exact ih _

theorem deleteAll_not_mem : ∀ (hs : List Nat) (g : GLState) (x : Nat),
    (x ∈ hs ∨ x ∉ g.shaderObjects) → x ∉ (deleteAll hs g).shaderObjects := by
  intro hs
  induction hs with
  | nil =>
    intro g x hx
    rcases hx with hx | hx
    · simp at hx
    · exact hx
  | cons h t ih =>
    intro g x hx
    show x ∉ (deleteAll t _).shaderObjects
    by_cases hxh : x = h
    · exact ih _ x (Or.inr (by subst hxh; simp [List.mem_filter]))
    · rcases hx with hx | hx
      · rw [List.mem_cons] at hx
        rcases hx with hx | hx
        · exact absurd hx hxh
        · exact ih _ x (Or.inl hx)
      · refine ih _ x (Or.inr ?_)
        intro hc
        exact hx (List.mem_of_mem_filter hc)

/-- A program object (handle 1) with one attached stage (handle 2). -/
def shUnlinked1 : ShaderState :=
  { m_Handle := 1, m_IsLinked := false, m_UniformLocations := [] }

/-- GL state holding program 1 with stage 2 attached. -/
def glProg1Stage2 : GLState :=
  { nextHandle := 2, programs := [1], shaderObjects := [2],
    attachments := [(1, 2)], events := [] }

/-- A driver whose link fails with an empty info log. -/
def driverLinkFailNoLog : Driver :=
  { createProgramOk := true, createShaderOk := true,
    compileStatus := fun _ _ => true, shaderInfoLog := fun _ => "",
    linkStatus := false, programInfoLog := "",
    uniformLocation := fun _ _ => -1 }

/-- A driver whose link fails with info log "LINKLOG". -/
def driverLinkFailLog : Driver :=
  { createProgramOk := true, createShaderOk := true,
    compileStatus := fun _ _ => true, shaderInfoLog := fun _ => "",
    linkStatus := false, programInfoLog := "LINKLOG",
    uniformLocation := fun _ _ => -1 }

/-- C4 counterexample: a program whose link step fails (link status
false) but whose info log is empty.  `Link` raises no error, frees
neither the program handle nor the attached stage, and returns normally
with the linked flag still false - refuting the claim that every link
failure fails fatally with cleanup. -/
theorem C4_counterexample :
    Shader.Link driverLinkFailNoLog shUnlinked1 glProg1Stage2 =
      .ok (shUnlinked1,
        { nextHandle := 2, programs := [1], shaderObjects := [2],
          attachments := [(1, 2)], events := [GLEvent.linkProgram 1] }) ∧
    driverLinkFailNoLog.linkStatus = false := by decide

/-- C4 (amended): for every program whose link step fails WITH A
POSITIVE INFO-LOG LENGTH, `Link` fetches the log, frees the program
handle and every attached stage object, and fails fatally with the log
text; when the link fails but the info-log length is zero, the failure
is silently ignored - `Link` returns normally, frees nothing, and the
linked flag stays false. -/
theorem C4_link_failure_paths :
    ∀ (d : Driver) (sh : ShaderState) (g : GLState), d.linkStatus = false →
      ((0 < d.programInfoLog.length →
        ∃ gErr, Shader.Link d sh g = .error (d.programInfoLog, gErr) ∧
          sh.m_Handle ∉ gErr.programs ∧
          ∀ h ∈ attachedTo g sh.m_Handle, h ∉ gErr.shaderObjects) ∧
       (d.programInfoLog.length = 0 →
        Shader.Link d sh g =
          .ok (sh, { g with events := g.events ++ [GLEvent.linkProgram sh.m_Handle] }))) := by
  intro d sh g hlink
  constructor
  · intro hlog
    unfold Shader.Link
    rw [hlink]
    rw [if_neg (by simp)]
    rw [if_pos (by omega)]
    refine ⟨_, rfl, ?_, ?_⟩
    · rw [deleteAll_programs]
      intro hc
      have := List.mem_filter.mp hc
      simp at this
    · intro h hmem
      refine deleteAll_not_mem _ _ h (Or.inl ?_)
      exact hmem
  · intro hlog
    unfold Shader.Link
    rw [hlink]
    rw [if_neg (by simp), if_neg (by omega)]

/-- Witness for C4: the positive-log branch at a concrete program. -/
theorem C4_witness :
    ∃ gErr, Shader.Link driverLinkFailLog shUnlinked1 glProg1Stage2 =
      .error ("LINKLOG", gErr) ∧
      (1 : Nat) ∉ gErr.programs ∧
      ∀ h ∈ attachedTo glProg1Stage2 1, h ∉ gErr.shaderObjects :=
  (C4_link_failure_paths driverLinkFailLog shUnlinked1 glProg1Stage2 rfl).1
    (by decide)

/-- A driver for which vertex stages compile and all other stages fail,
with diagnostic log "LOG". -/
def driverFragFails : Driver :=
  { createProgramOk := true, createShaderOk := true,
    compileStatus := fun ty _ => ty == ShaderType.Vertex,
    shaderInfoLog := fun _ => "LOG",
    linkStatus := true, programInfoLog := "",
    uniformLocation := fun _ _ => -1 }

/-- A driver like `driverFragFails` but with an empty diagnostic log. -/
def driverFragFailsNoLog : Driver :=
  { createProgramOk := true, createShaderOk := true,
    compileStatus := fun ty _ => ty == ShaderType.Vertex,
    shaderInfoLog := fun _ => "",
    linkStatus := true, programInfoLog := "",
    uniformLocation := fun _ _ => -1 }

/-- C5 counterexample: two stages where the first compiles and the
second fails.  The error carries the driver diagnostic, but stage
object 2 - allocated and attached for this program before the failure -
is STILL alive in the error state (only the failing stage 3 was
deleted), refuting "every stage object allocated so far for that program
is released before the error propagates". -/
theorem C5_counterexample :
    Shader.CompileAll driverFragFails
      [(ShaderType.Vertex, "A".toList), (ShaderType.Fragment, "B".toList)]
      { m_Handle := 0, m_IsLinked := false, m_UniformLocations := [] } glEmpty =
      .error ("LOG: shader compilation failed!",
        { nextHandle := 3, programs := [1], shaderObjects := [2],
          attachments := [(1, 2)],
          events := [GLEvent.createProgram 1, GLEvent.createShader 2,
            GLEvent.compileShader 2, GLEvent.attachShader 1 2,
            GLEvent.createShader 3, GLEvent.compileShader 3,
            GLEvent.deleteShader 3] }) ∧
    (2 : Nat) ∈ (GLState.mk 3 [1] [2] [(1, 2)]
      [GLEvent.createProgram 1, GLEvent.createShader 2, GLEvent.compileShader 2,
        GLEvent.attachShader 1 2, GLEvent.createShader 3, GLEvent.compileShader 3,
        GLEvent.deleteShader 3]).shaderObjects := by decide

/-- C5 (amended): when a stage fails to compile, construction fails
fatally carrying the driver's diagnostic text (or the generic message if
the log is empty), but ONLY the failing stage object is released; stage
objects previously attached to the program - and the program handle -
remain allocated when the error propagates. -/
theorem C5_compile_failure_releases_only_failing_stage :
    ∀ (d : Driver) (g : GLState) (t1 t2 : ShaderType) (s1 s2 : List Char),
      d.createProgramOk = true → d.createShaderOk = true →
      d.compileStatus t1 s1 = true → d.compileStatus t2 s2 = false →
      ∃ gErr,
        Shader.CompileAll d [(t1, s1), (t2, s2)]
          { m_Handle := 0, m_IsLinked := false, m_UniformLocations := [] } g =
          .error ((if d.shaderInfoLog s2 ≠ "" then
              d.shaderInfoLog s2 ++ ": shader compilation failed!"
            else "Shader compilation failed!"), gErr) ∧
        g.nextHandle + 2 ∈ gErr.shaderObjects ∧
        g.nextHandle + 3 ∉ gErr.shaderObjects ∧
        g.nextHandle + 1 ∈ gErr.programs := by
  intro d g t1 t2 s1 s2 hcp hcs h1 h2
  unfold Shader.CompileAll Shader.CompileStage
  simp only [hcp, hcs, h1, h2, if_true, if_false, Bool.false_eq_true, if_pos rfl]
  unfold Shader.CompileAll Shader.CompileStage
  rw [if_neg (show ¬ (g.nextHandle + 1 = 0) by omega)]
  simp only [hcs, h2, if_true, Bool.false_eq_true, if_false]
  refine ⟨_, rfl, ?_, ?_, ?_⟩
  · refine List.mem_filter.mpr ⟨by simp, ?_⟩
    simp only [bne_iff_ne, ne_eq]
    omega
  · intro hc
    have := List.mem_filter.mp hc
    simp at this
  · simp

/-- Witness for C5: the empty-log variant at a concrete input. -/
theorem C5_witness :
    ∃ gErr,
      Shader.CompileAll driverFragFailsNoLog
        [(ShaderType.Vertex, "A".toList), (ShaderType.Fragment, "B".toList)]
        { m_Handle := 0, m_IsLinked := false, m_UniformLocations := [] } glEmpty =
        .error ((if driverFragFailsNoLog.shaderInfoLog "B".toList ≠ "" then
            driverFragFailsNoLog.shaderInfoLog "B".toList ++ ": shader compilation failed!"
          else "Shader compilation failed!"), gErr) ∧
      glEmpty.nextHandle + 2 ∈ gErr.shaderObjects ∧
      glEmpty.nextHandle + 3 ∉ gErr.shaderObjects ∧
      glEmpty.nextHandle + 1 ∈ gErr.programs :=
  C5_compile_failure_releases_only_failing_stage driverFragFailsNoLog glEmpty
    ShaderType.Vertex ShaderType.Fragment "A".toList "B".toList rfl rfl
    (by decide) (by decide)

/-! ## C6: lazy link on first bind, exactly once -/

theorem compileStage_isLinked {d : Driver} {ty : ShaderType} {src : List Char}
    {sh sh1 : ShaderState} {g g1 : GLState}
    (h : Shader.CompileStage d ty src sh g = .ok (sh1, g1)) :
    sh1.m_IsLinked = sh.m_IsLinked := by
  unfold Shader.CompileStage at h
  repeat' split at h
  all_goals try simp_all
  all_goals rw [← h.1]

theorem compileAll_isLinked : ∀ (srcs : List (ShaderType × List Char))
    {d : Driver} {sh sh1 : ShaderState} {g g1 : GLState},
    Shader.CompileAll d srcs sh g = .ok (sh1, g1) →
    sh1.m_IsLinked = sh.m_IsLinked := by
  intro srcs
  induction srcs with
  | nil =>
    intro d sh sh1 g g1 h
    unfold Shader.CompileAll at h
    simp at h
    rw [h.1]
  | cons e rest ih =>
    intro d sh sh1 g g1 h
    obtain ⟨ty, src⟩ := e
    unfold Shader.CompileAll at h
    split at h
    · simp at h
    · rename_i sh2 g2 heq
      rw [ih h, compileStage_isLinked heq]

theorem construct_isLinked {d : Driver} {fs : String → Option (List Char)}
    {filepath : String} {g0 : GLState} {sh : ShaderState} {g1 : GLState}
    {logs : List String}
    (h : Shader.construct d fs filepath g0 = .ok sh g1 logs) :
    sh.m_IsLinked = false := by
  unfold Shader.construct at h
  dsimp only at h
  split at h
  · simp at h
  · rename_i sources heq
    split at h
    · simp at h
    · rename_i shg heq2
      simp at h
      rw [← h.1]
      exact compileAll_isLinked sources heq2

theorem linkCount_append (es l : List GLEvent) :
    linkCount (es ++ l) = linkCount es + linkCount l :=
  List.countP_append _ es l

theorem detachDeleteAll_linkCount : ∀ (hs : List Nat) (p : Nat) (g : GLState),
    linkCount (detachDeleteAll p hs g).events = linkCount g.events := by
  intro hs
  induction hs with
  | nil => intro p g; rfl
  | cons h t ih =>
    intro p g
    show linkCount (detachDeleteAll p t _).events = _
    rw [ih]
    show linkCount (g.events ++ [GLEvent.detachShader p h, GLEvent.deleteShader h]) = _
    rw [linkCount_append]
    rfl

theorem link_success {d : Driver} (sh : ShaderState) (g : GLState)
    (hl : d.linkStatus = true) :
    ∃ g1, Shader.Link d sh g = .ok ({ sh with m_IsLinked := true }, g1) ∧
      linkCount g1.events = linkCount g.events + 1 := by
  unfold Shader.Link
  rw [hl, if_pos rfl]
  refine ⟨_, rfl, ?_⟩
  rw [detachDeleteAll_linkCount]
  show linkCount ((g.events ++ [GLEvent.linkProgram sh.m_Handle]) ++
    [GLEvent.validateProgram sh.m_Handle]) = _
  rw [linkCount_append, linkCount_append]
  rfl

theorem bind_linked {d : Driver} {sh : ShaderState} {g : GLState}
    (h : sh.m_IsLinked = true) :
    Shader.Bind d sh g =
      .ok (sh, { g with events := g.events ++ [GLEvent.useProgram sh.m_Handle] }) := by
  unfold Shader.Bind
  rw [if_pos h]

theorem bindIter_linked {d : Driver} : ∀ (n : Nat) (sh : ShaderState) (g : GLState),
    sh.m_IsLinked = true →
    ∃ gn, Shader.bindIter d n (sh, g) = .ok (sh, gn) ∧
      linkCount gn.events = linkCount g.events := by
  intro n
  induction n with
  | zero => intro sh g _; exact ⟨g, rfl, rfl⟩
  | succ m ih =>
    intro sh g h
    obtain ⟨gn, hgn, hcnt⟩ :=
      ih sh { g with events := g.events ++ [GLEvent.useProgram sh.m_Handle] } h
    refine ⟨gn, ?_, ?_⟩
    · show (match Shader.Bind d sh g with
        | Except.error e => Except.error e
        | Except.ok sg1 => Shader.bindIter d m sg1) = _
      rw [bind_linked h]
      exact hgn
    · rw [hcnt, linkCount_append]
      rfl

/-- C6: for every program whose stages all compile (the constructor
returned successfully) and whose link succeeds, the linked flag is false
before the first bind and true after every bind; across any number
`n >= 1` of binds exactly one `glLinkProgram` request appears in the
event trace - the flag transitions false-to-true exactly once, on the
first bind, never reverts, and a second bind issues no second link
request. -/
theorem C6_lazy_link_exactly_once :
    ∀ (d : Driver) (fs : String → Option (List Char)) (filepath : String)
      (g0 : GLState) (sh : ShaderState) (g1 : GLState) (logs : List String),
      Shader.construct d fs filepath g0 = .ok sh g1 logs →
      d.linkStatus = true →
      sh.m_IsLinked = false ∧
      ∀ n, 1 ≤ n → ∃ shn gn, Shader.bindIter d n (sh, g1) = .ok (shn, gn) ∧
        shn.m_IsLinked = true ∧
        linkCount gn.events = linkCount g1.events + 1 := by
  intro d fs filepath g0 sh g1 logs hc hl
  have hnl : sh.m_IsLinked = false := construct_isLinked hc
  refine ⟨hnl, ?_⟩
  intro n hn
  obtain ⟨m, rfl⟩ : ∃ m, n = m + 1 := ⟨n - 1, by omega⟩
  obtain ⟨gl, hgl, hcl⟩ := link_success sh g1 hl
  have hbind : Shader.Bind d sh g1 =
      .ok ({ sh with m_IsLinked := true },
        { gl with events := gl.events ++
          [GLEvent.useProgram ({ sh with m_IsLinked := true }).m_Handle] }) := by
    unfold Shader.Bind
    rw [if_neg (by rw [hnl]; simp), hgl]
  obtain ⟨gn, hgn, hcnt⟩ := bindIter_linked m { sh with m_IsLinked := true } _ rfl
  refine ⟨{ sh with m_IsLinked := true }, gn, ?_, rfl, ?_⟩
  · show (match Shader.Bind d sh g1 with
      | Except.error e => Except.error e
      | Except.ok sg1 => Shader.bindIter d m sg1) = _
    rw [hbind]
    exact hgn
  · rw [hcnt, linkCount_append, hcl]
    rfl

/-- Filesystem oracle holding a single-stage shader file. -/
def fsOneStage : String → Option (List Char) := fun _ => some "#type vertex\nA\n".toList

/-- The object state `Shader::Shader` produces from `fsOneStage`. -/
def shConstructed : ShaderState :=
  { m_Handle := 1, m_IsLinked := false, m_UniformLocations := [] }

/-- The GL state `Shader::Shader` produces from `fsOneStage`. -/
def glConstructed : GLState :=
  { nextHandle := 2, programs := [1], shaderObjects := [2], attachments := [(1, 2)],
    events := [GLEvent.createProgram 1, GLEvent.createShader 2,
      GLEvent.compileShader 2, GLEvent.attachShader 1 2] }

/-- Witness for C6: a concretely constructed one-stage program, bound
twice, with exactly one link request in the trace. -/
theorem C6_witness :
    ∃ shn gn, Shader.bindIter driverAllOk 2 (shConstructed, glConstructed) =
      .ok (shn, gn) ∧ shn.m_IsLinked = true ∧
      linkCount gn.events = linkCount glConstructed.events + 1 :=
  ((C6_lazy_link_exactly_once driverAllOk fsOneStage "shader.glsl" glEmpty
    shConstructed glConstructed [] (by decide) rfl).2) 2 (by omega)

/-! ## Frame submission protocol (Renderer.cpp)

`Renderer::Submit` is modelled at call granularity: each statement of
Renderer.cpp:19-26 emits one event.  `bindShader` stands for the
`Shader::Bind` call (its internal lazy-link behaviour is verified
separately on the shader model), `setUniform` for the
`Shader::SetUniform` calls, `bindVertexArray` for `VertexArray::Bind`.
The matrix payload type is an opaque parameter `M` (glm::mat4 values are
only forwarded, never computed on). -/

inductive RenderEvent (M : Type) where
  | bindShader
  | setUniform (name : String) (value : M)
  | bindVertexArray
  | drawIndexed (indexCount : Nat)
deriving DecidableEq, Repr

/-- The renderer's process-wide state: `Renderer::s_ViewProjectionMatrix`
(Renderer.cpp:5). -/
structure RendererState (M : Type) where
  s_ViewProjectionMatrix : M
deriving DecidableEq, Repr

/-- `Renderer::BeginScene` (Renderer.cpp:11-13): snapshot the camera's
view-projection matrix into the shared state; no other side effect.  The
camera collaborator is represented by its exposed matrix. -/
def Renderer.BeginScene {M : Type} (cameraViewProjection : M)
    (st : RendererState M) : RendererState M :=
  { st with s_ViewProjectionMatrix := cameraViewProjection }

/-- The geometry collaborator: a bindable identity with an index count. -/
structure VertexArrayModel where
  indexCount : Nat
deriving DecidableEq, Repr

/-- Modelled from the spec: `RenderCommand::DrawIndexed` - its source
file (RenderCommand.cpp) is not among the sources at hand; per the spec,
"Issue one indexed draw call sized to the geometry's index count." -/
def RenderCommand.DrawIndexed {M : Type} (va : VertexArrayModel) :
    List (RenderEvent M) :=
  [RenderEvent.drawIndexed va.indexCount]

/-- `Renderer::Submit` (Renderer.cpp:19-26): bind the program, upload the
shared view-projection matrix to `u_ViewProjectionMatrix`, upload the
call's transform to `u_Transform`, bind the vertex array, draw. -/
def Renderer.Submit {M : Type} (st : RendererState M) (va : VertexArrayModel)
    (transform : M) : List (RenderEvent M) :=
  [RenderEvent.bindShader,
   RenderEvent.setUniform "u_ViewProjectionMatrix" st.s_ViewProjectionMatrix,
   RenderEvent.setUniform "u_Transform" transform,
   RenderEvent.bindVertexArray]
  ++ RenderCommand.DrawIndexed va

/-- C9: every `submit(program, geometry, transform)` after
`beginScene(camera)` performs, in order: bind program, upload the
view-projection matrix snapshotted by the most recent `beginScene` into
`u_ViewProjectionMatrix`, upload the call's transform into
`u_Transform`, bind the geometry, and issue exactly one indexed draw
call whose index count equals the geometry's index count. -/
theorem C9_submit_protocol {M : Type} (camera : M) (st0 : RendererState M)
    (va : VertexArrayModel) (transform : M) :
    Renderer.Submit (Renderer.BeginScene camera st0) va transform =
      [RenderEvent.bindShader,
       RenderEvent.setUniform "u_ViewProjectionMatrix" camera,
       RenderEvent.setUniform "u_Transform" transform,
       RenderEvent.bindVertexArray,
       RenderEvent.drawIndexed va.indexCount] ∧
    (Renderer.Submit (Renderer.BeginScene camera st0) va transform).countP
      (fun e => match e with | RenderEvent.drawIndexed _ => true | _ => false) = 1 := by
  constructor
  · rfl
  · rfl

/-! ## Index buffer lifecycle (IndexBuffer.cpp) -/

/-- The buffer usage hint enumeration from the missing IndexBuffer.hpp;
per the spec it is a static-vs-dynamic upload pattern hint. -/
inductive BufferUsage where
  | Static
  | Dynamic
deriving DecidableEq, Repr

/-- The `IndexBuffer` object fields (`m_Handle`, `m_Count`, `m_Usage`). -/
structure IndexBufferState where
  m_Handle : Nat
  m_Count : Nat
  m_Usage : BufferUsage
deriving DecidableEq, Repr

/-- Driver-side buffer state: the handle counter, the process-wide
`GL_ELEMENT_ARRAY_BUFFER` binding, and the uploads performed
(`glBufferData` records handle, data pointer contents, element count and
usage). -/
structure GLBufferState where
  nextHandle : Nat
  elementArrayBinding : Nat
  uploads : List (Nat × List Nat × Nat × BufferUsage)
deriving DecidableEq, Repr

/-- `IndexBuffer::IndexBuffer` (IndexBuffer.cpp:17-30): `glGenBuffers`
issues a fresh handle, `glBindBuffer(GL_ELEMENT_ARRAY_BUFFER, handle)`
binds it, `glBufferData` uploads `count` elements.
`IndexBuffer::Create` (IndexBuffer.cpp:5-7) just wraps this constructor
in a `CreateRef`. -/
def IndexBuffer.construct (indices : List Nat) (count : Nat)
    (usage : BufferUsage) (g : GLBufferState) :
    IndexBufferState × GLBufferState :=
  let h := g.nextHandle + 1
  (⟨h, count, usage⟩,
   { nextHandle := h, elementArrayBinding := h,
     uploads := g.uploads ++ [(h, indices.take count, count, usage)] })

/-- C10: after every `IndexBuffer::Create`, the process-wide active
index-buffer binding equals the newly created buffer's handle -
construction binds the new buffer as a side effect (and the handle is
nonzero, i.e. a real buffer rather than the null binding). -/
theorem C10_create_leaves_buffer_bound (indices : List Nat) (count : Nat)
    (usage : BufferUsage) (g : GLBufferState) :
    (IndexBuffer.construct indices count usage g).2.elementArrayBinding =
      (IndexBuffer.construct indices count usage g).1.m_Handle ∧
    (IndexBuffer.construct indices count usage g).1.m_Handle ≠ 0 := by
  exact ⟨rfl, by simp [IndexBuffer.construct]⟩
